import Mathlib

/-!
Shallow embedding of `1passsync.py` — a tool that resolves a declarative
`1passwordrc.yml` config against a secrets backend (the `op` CLI), either
downloading documents or substituting `{{...}}` placeholders in templates.

Python strings are modelled as `List Char`; the external `op` CLI and the
filesystem are modelled as function parameters (`OpFun`, `FetchFun`,
`TmplFun`); written output is returned instead of performed.  The regex
`\{\{(?:(?:(.+?)\.)?(.+?)\.)?(.+?)}}` is embedded by a direct implementation
of the backtracking search the Python `re` engine performs on this fixed
pattern (lazy one-or-more groups, literal dots and braces, `.` not matching
a newline, alternatives tried with the optional groups participating first).
-/

namespace OnePassSync

/-- Python strings are modelled as lists of characters. -/
abbrev Str : Type := List Char

/-! ## The placeholder pattern `\{\{(?:(?:(.+?)\.)?(.+?)\.)?(.+?)}}` -/

/-- Literal `\.` of the pattern: does the remaining input start with a dot?
Returns the input after the dot. -/
def startsDot (cs : Str) : Option Str :=
  match cs with
  | a :: r => if a = '.' then some r else none
  | _ => none

/-- Literal `}}` of the pattern: does the remaining input start with two
closing braces?  Returns the input after them. -/
def startsClose (cs : Str) : Option Str :=
  match cs with
  | a :: b :: r => if a = '}' ∧ b = '}' then some r else none
  | _ => none

/-- Lazy `(.+?)}}` at the end of the pattern: the shortest nonempty,
newline-free prefix after which `}}` follows.  Returns the group and the
input after the closing braces. -/
def seekClose : Str → Option (Str × Str)
  | [] => none
  | c :: cs =>
    if c = '\n' then none
    else
      match startsClose cs with
      | some r => some ([c], r)
      | none => (seekClose cs).map (fun pr => (c :: pr.1, pr.2))

/-- Lazy `(.+?)\.` followed by a continuation `k` (the rest of the pattern):
prefixes are tried shortest first, and a prefix is kept only if a dot follows
it and the continuation succeeds after the dot — otherwise the group is
extended, exactly as the backtracking regex engine does. -/
def seekDot {α : Type} (k : Str → Option α) : Str → Option (Str × α)
  | [] => none
  | c :: cs =>
    if c = '\n' then none
    else
      match startsDot cs with
      | some r =>
        match k r with
        | some a => some ([c], a)
        | none => (seekDot k cs).map (fun pr => (c :: pr.1, pr.2))
      | none => (seekDot k cs).map (fun pr => (c :: pr.1, pr.2))

/-- One regex match: the three captured groups (`vault` and `item` optional,
`field` mandatory) and `text`, the full matched substring (`match.group()`). -/
structure RMatch where
  vault : Option Str
  item : Option Str
  field : Str
  text : Str
deriving DecidableEq, Repr

/-- Matching the pattern right after its leading `\{\{`: the outer optional
group is tried with the inner optional group participating first
(three components), then without it (two components), then the outer group
is dropped (one component) — the preference order of the regex engine. -/
def matchGroups (cs : Str) : Option (RMatch × Str) :=
  match seekDot (seekDot seekClose) cs with
  | some (g1, g2, g3, rest) =>
    some (⟨some g1, some g2, g3,
      '{' :: '{' :: (g1 ++ '.' :: (g2 ++ '.' :: (g3 ++ ['}', '}'])))⟩, rest)
  | none =>
    match seekDot seekClose cs with
    | some (g2, g3, rest) =>
      some (⟨none, some g2, g3,
        '{' :: '{' :: (g2 ++ '.' :: (g3 ++ ['}', '}']))⟩, rest)
    | none =>
      match seekClose cs with
      | some (g3, rest) =>
        some (⟨none, none, g3, '{' :: '{' :: (g3 ++ ['}', '}'])⟩, rest)
      | none => none

/-- Scanning loop of `re.finditer`: try the pattern at each position (it can
only start at `{{`), emit non-overlapping matches left to right, resume after
each match.  `fuel` only bounds the recursion; every step consumes at least
one character, so `length + 1` fuel is never exhausted. -/
def findIterAux : Nat → Str → List RMatch
  | 0, _ => []
  | _ + 1, [] => []
  | fuel + 1, '{' :: '{' :: cs =>
    (match matchGroups cs with
     | some (m, rest) => m :: findIterAux fuel rest
     | none => findIterAux fuel ('{' :: cs))
  | fuel + 1, _ :: cs => findIterAux fuel cs

/-- All matches of the placeholder pattern in one line
(`re.finditer(pattern, line)`). -/
def findIter (s : Str) : List RMatch :=
  findIterAux (s.length + 1) s

/-! ## Python `str.replace` (replaces every non-overlapping occurrence) -/

/-- Does `s` start with `p`?  (Char-by-char prefix test.) -/
def startsWith : Str → Str → Bool
  | _, [] => true
  | [], _ :: _ => false
  | c :: s, o :: os => (c == o) && startsWith s os

/-- Worker for `str.replace` with a nonempty needle `o :: os`: scan left to
right, replace each occurrence and resume after it (the replacement is never
rescanned).  `fuel ≥ length` suffices since every step consumes a character. -/
def replaceAllFuel (o : Char) (os new : Str) : Nat → Str → Str
  | _, [] => []
  | 0, s => s
  | fuel + 1, c :: s =>
    if startsWith (c :: s) (o :: os) then
      new ++ replaceAllFuel o os new fuel (s.drop os.length)
    else
      c :: replaceAllFuel o os new fuel s

/-- Python `s.replace(old, new)`: every non-overlapping occurrence of `old`
is replaced, left to right.  With an empty `old`, Python inserts `new`
between all characters and at both ends. -/
def replaceAll (s old new : Str) : Str :=
  match old with
  | [] => new ++ s.foldr (fun ch acc => ch :: (new ++ acc)) []
  | o :: os => replaceAllFuel o os new s.length s

/-- The substitution step of `process_template`, line 138 of the source:
`content[line_number].replace(match.group(), value)`. -/
def substStep (cur text value : Str) : Str :=
  replaceAll cur text value

/-! ## The secrets backend (`op` CLI) -/

/-- One entry of the `fields` list in the JSON document returned by
`op item get`; both keys are read with `dict.get`, so either may be absent. -/
structure FieldData where
  label : Option Str
  value : Option Str
deriving DecidableEq, Repr

/-- Outcome of running `op item get ITEM --format json` (with optional vault
and account flags) and parsing its output: either a failure
(`CalledProcessError` or `JSONDecodeError`) or the item's `fields` list
(empty when the key is missing). -/
inductive OpOutcome where
  | error : OpOutcome
  | ok : List FieldData → OpOutcome
deriving DecidableEq, Repr

/-- The external `op item get` invocation, as a function of
(account, vault, item). -/
abbrev OpFun : Type := Option Str → Option Str → Str → OpOutcome

/-- The external `op document get` invocation, as a function of
(account, vault, item): `none` models `CalledProcessError`, otherwise the
raw bytes on stdout. -/
abbrev FetchFun : Type := Option Str → Option Str → Str → Option (List Nat)

/-- The filesystem as seen by the template reader: maps a path to the list
of lines of the file (`readlines`, each line keeping its newline), or `none`
when opening or reading raises. -/
abbrev TmplFun : Type := Str → Option (List Str)

/-- `get_1password_value` (lines 16-54): returns `None` when the item name is
missing or empty (`if not item`), when the backend invocation or the JSON
parse fails, or — via the first `fields` entry whose `label` equals `field` —
the entry's `value` (absent key gives `None`; note that an empty-string value
is returned as is, even though the function prints "Field not found"). -/
def get_1password_value (op : OpFun) (account vault : Option Str)
    (item : Option Str) (field : Str) : Option Str :=
  match item with
  | none => none
  | some it =>
    if it = [] then none
    else
      match op account vault it with
      | .error => none
      | .ok fields =>
        match fields.find? (fun fd => fd.label = some field) with
        | none => none
        | some fd => fd.value

/-- `get_1password_file` (lines 57-78): runs `op document get` and returns
its stdout bytes, or `None` on `CalledProcessError`. -/
def get_1password_file (fetch : FetchFun) (account vault : Option Str)
    (item : Str) : Option (List Nat) :=
  fetch account vault item

/-- `process_file` (lines 81-103).  The second component is the content
written to `destination` (`none` when nothing is written).  Passing `item =
None` makes the command construction raise `TypeError`, which the
`except Exception` handler turns into `False`; a fetch returning `None` or
empty bytes (`if not file_content`) also yields `False` with no write. -/
def process_file (fetch : FetchFun) (account vault : Option Str)
    (item : Option Str) (destination : Str) : Bool × Option (List Nat) :=
  match item with
  | none => (false, none)
  | some it =>
    match get_1password_file fetch account vault it with
    | none => (false, none)
    | some content =>
      if content = [] then (false, none) else (true, some content)

/-! ## The template engine -/

/-- Arguments of one `get_1password_value` call:
(account, vault, item, field). -/
abbrev CallT : Type := Option Str × Option Str × Option Str × Str

/-- Lines 125-131 of the source: the resolved lookup tuple for one match —
the matched vault if present else the work item's vault, the matched item if
present else the item passed to `process_template` (which the driver takes
from the config key `item`), and the matched field.  The account is always
the work item's account. -/
def resolveCall (account vault itemName : Option Str) (m : RMatch) : CallT :=
  (account,
   match m.vault with
   | some v => some v
   | none => vault,
   match m.item with
   | some i => some i
   | none => itemName,
   m.field)

/-- The lookup performed for a resolved call tuple (line 136 of the source). -/
def callValue (op : OpFun) (c : CallT) : Option Str :=
  get_1password_value op c.1 c.2.1 c.2.2.1 c.2.2.2

/-- Body of the inner `for match in re.finditer(...)` loop (lines 124-142):
resolve the tuple, perform the lookup, and on success replace the matched
text in the evolving line; on failure clear the success flag.  The state is
(current line, success flag, lookup calls made so far). -/
def matchStep (op : OpFun) (account vault itemName : Option Str)
    (acc : Str × Bool × List CallT) (m : RMatch) : Str × Bool × List CallT :=
  let c := resolveCall account vault itemName m
  match callValue op c with
  | some v => (substStep acc.1 m.text v, acc.2.1, acc.2.2 ++ [c])
  | none => (acc.1, false, acc.2.2 ++ [c])

/-- Processing of one line of the template: the matches are computed on the
original line, while the replacements apply to the evolving copy. -/
def processLine (op : OpFun) (account vault itemName : Option Str)
    (line : Str) : Str × Bool × List CallT :=
  (findIter line).foldl (matchStep op account vault itemName) (line, true, [])

/-- `process_template` (lines 106-151): read the template's lines (an
unreadable file is the `except` path: `False`, nothing written), process
every line, and write the modified lines to `destination` only when every
lookup succeeded.  Returns (success flag, written content, lookup calls). -/
def process_template (op : OpFun) (tmpl : TmplFun)
    (account vault itemName : Option Str) (source destination : Str) :
    Bool × Option (List Str) × List CallT :=
  match tmpl source with
  | none => (false, none, [])
  | some content =>
    let results := content.map (processLine op account vault itemName)
    let success := results.all (fun r => r.2.1)
    (success,
     if success then some (results.map (fun r => r.1)) else none,
     (results.map (fun r => r.2.2)).flatten)

/-! ## The config driver -/

/-- One entry of the `items` list of `1passwordrc.yml`, as the dictionary the
YAML loader produces: every key may be absent. -/
structure RawItem where
  name : Option Str
  type : Option Str
  account : Option Str
  vault : Option Str
  item : Option Str
  destination : Option Str
  source : Option Str
deriving DecidableEq, Repr

/-- Observable outcome of processing one config item: which component ran,
its success flag, and what it wrote. -/
inductive ItemEvent where
  | fileDone : Str → Bool → Option (List Nat) → ItemEvent
  | templateDone : Str → Bool → Option (List Str) → List CallT → ItemEvent
deriving DecidableEq, Repr

/-- One iteration of the loop in `process_1passwordrc_file` (lines 163-179).
`item["name"]`, `item["destination"]`, `item["type"]` and (for templates)
`item["source"]` raise `KeyError` when absent — modelled as `.error ()`,
which aborts the whole run since nothing catches it.  `account`, `vault` and
`item` are read with `.get` and default to `None`.  A `type` that is neither
`file` nor `template` matches no branch and produces nothing. -/
def process_1passwordrc_item (op : OpFun) (fetch : FetchFun) (tmpl : TmplFun)
    (it : RawItem) : Except Unit (List ItemEvent) :=
  match it.name with
  | none => .error ()
  | some itemKey =>
    match it.destination with
    | none => .error ()
    | some destination =>
      match it.type with
      | none => .error ()
      | some ty =>
        if ty = "file".toList then
          let r := process_file fetch it.account it.vault it.item destination
          .ok [.fileDone itemKey r.1 r.2]
        else if ty = "template".toList then
          match it.source with
          | none => .error ()
          | some src =>
            let r := process_template op tmpl it.account it.vault it.item
              src destination
            .ok [.templateDone itemKey r.1 r.2.1 r.2.2]
        else .ok []

/-- `process_1passwordrc_file` (lines 154-179): process the items in order;
an uncaught `KeyError` aborts the run. -/
def process_1passwordrc_file (op : OpFun) (fetch : FetchFun) (tmpl : TmplFun) :
    List RawItem → Except Unit (List ItemEvent)
  | [] => .ok []
  | it :: rest =>
    match process_1passwordrc_item op fetch tmpl it with
    | .error e => .error e
    | .ok evs =>
      match process_1passwordrc_file op fetch tmpl rest with
      | .error e => .error e
      | .ok more => .ok (evs ++ more)

end OnePassSync


namespace OnePassSync

/-! ## Lemmas about the pattern matcher -/

/-- A well-formed placeholder component: nonempty, with no dot, closing brace
or newline. -/
abbrev GoodComp (c : Str) : Prop :=
  c ≠ [] ∧ ∀ ch ∈ c, ch ≠ '.' ∧ ch ≠ '}' ∧ ch ≠ '\n'

theorem startsClose_cons_ne {y : Char} (l : Str) (hy : y ≠ '}') :
    startsClose (y :: l) = none := by
  cases l with
  | nil => rfl
  | cons b r => simp [startsClose, hy]

theorem startsDot_cons_ne {y : Char} (l : Str) (hy : y ≠ '.') :
    startsDot (y :: l) = none := by
  simp [startsDot, hy]

theorem startsDot_some {l r : Str} (h : startsDot l = some r) : l = '.' :: r := by
  cases l with
  | nil => simp [startsDot] at h
  | cons a t =>
    by_cases ha : a = '.'
    · subst ha
      simp [startsDot] at h
      rw [h]
    · simp [startsDot, ha] at h

theorem seekClose_cons_skip {x : Char} {l : Str} (hx : x ≠ '\n')
    (hsc : startsClose l = none) :
    seekClose (x :: l) = (seekClose l).map (fun pr => (x :: pr.1, pr.2)) := by
  conv_lhs => rw [seekClose]
  simp [hx, hsc]

theorem seekClose_cons_hit {x : Char} {l r : Str} (hx : x ≠ '\n')
    (hsc : startsClose l = some r) :
    seekClose (x :: l) = some ([x], r) := by
  conv_lhs => rw [seekClose]
  simp [hx, hsc]

theorem seekDot_cons_skip {α : Type} (k : Str → Option α) {x : Char} {l : Str}
    (hx : x ≠ '\n') (hsd : startsDot l = none) :
    seekDot k (x :: l) = (seekDot k l).map (fun pr => (x :: pr.1, pr.2)) := by
  conv_lhs => rw [seekDot]
  simp [hx, hsd]

theorem seekDot_cons_fail {α : Type} (k : Str → Option α) {x : Char} {l r : Str}
    (hx : x ≠ '\n') (hsd : startsDot l = some r) (hk : k r = none) :
    seekDot k (x :: l) = (seekDot k l).map (fun pr => (x :: pr.1, pr.2)) := by
  conv_lhs => rw [seekDot]
  simp [hx, hsd, hk]

theorem seekDot_cons_hit {α : Type} (k : Str → Option α) {x : Char} {l r : Str}
    {a : α} (hx : x ≠ '\n') (hsd : startsDot l = some r) (hk : k r = some a) :
    seekDot k (x :: l) = some ([x], a) := by
  conv_lhs => rw [seekDot]
  simp [hx, hsd, hk]

theorem seekClose_append (c rest : Str) (hne : c ≠ [])
    (hch : ∀ ch ∈ c, ch ≠ '}' ∧ ch ≠ '\n') :
    seekClose (c ++ '}' :: '}' :: rest) = some (c, rest) := by
  induction c with
  | nil => exact absurd rfl hne
  | cons x t ih =>
    have hx := hch x (List.mem_cons_self ..)
    cases t with
    | nil =>
      rw [List.cons_append, List.nil_append,
        seekClose_cons_hit hx.2
          (show startsClose ('}' :: '}' :: rest) = some rest by simp [startsClose])]
    | cons y t' =>
      have hy := hch y (by simp)
      have hrec := ih (by simp) (fun ch hm => hch ch (List.mem_cons_of_mem _ hm))
      rw [List.cons_append,
        seekClose_cons_skip hx.2 (by rw [List.cons_append]; exact startsClose_cons_ne _ hy.1),
        hrec]
      rfl

theorem seekDot_eq_none {α : Type} (k : Str → Option α) (cs : Str)
    (h : ∀ p r, cs = p ++ '.' :: r → k r = none) :
    seekDot k cs = none := by
  induction cs with
  | nil => rfl
  | cons c cs ih =>
    have ih' := ih (fun p r hpr => h (c :: p) r (by rw [hpr]; rfl))
    by_cases hc : c = '\n'
    · conv_lhs => rw [seekDot]
      simp [hc]
    · cases hs : startsDot cs with
      | none => rw [seekDot_cons_skip k hc hs, ih']; rfl
      | some r =>
        have hk := h [c] r (by rw [startsDot_some hs]; rfl)
        rw [seekDot_cons_fail k hc hs hk, ih']
        rfl

theorem seekDot_no_dot {α : Type} (k : Str → Option α) (cs : Str)
    (h : '.' ∉ cs) : seekDot k cs = none := by
  apply seekDot_eq_none
  intro p r hpr
  exfalso
  apply h
  rw [hpr]
  simp

theorem seekDot_append {α : Type} (k : Str → Option α) (c t : Str) (a : α)
    (hne : c ≠ []) (hch : ∀ ch ∈ c, ch ≠ '.' ∧ ch ≠ '\n') (hk : k t = some a) :
    seekDot k (c ++ '.' :: t) = some (c, a) := by
  induction c with
  | nil => exact absurd rfl hne
  | cons x t' ih =>
    have hx := hch x (List.mem_cons_self ..)
    cases t' with
    | nil =>
      rw [List.cons_append, List.nil_append,
        seekDot_cons_hit k hx.2
          (show startsDot ('.' :: t) = some t by simp [startsDot]) hk]
    | cons y t'' =>
      have hy := hch y (by simp)
      have hrec := ih (by simp) (fun ch hm => hch ch (List.mem_cons_of_mem _ hm))
      rw [List.cons_append,
        seekDot_cons_skip k hx.2 (by rw [List.cons_append]; exact startsDot_cons_ne _ hy.1),
        hrec]
      rfl

theorem dot_split_unique {a b p r : Str} (ha : '.' ∉ a) (hb : '.' ∉ b)
    (h : a ++ '.' :: b = p ++ '.' :: r) : p = a ∧ r = b := by
  induction a generalizing p with
  | nil =>
    cases p with
    | nil =>
      simp only [List.nil_append, List.cons.injEq] at h
      exact ⟨rfl, h.2.symm⟩
    | cons x p' =>
      simp only [List.nil_append, List.cons_append, List.cons.injEq] at h
      exfalso
      apply hb
      rw [h.2]
      simp
  | cons y a' ih =>
    cases p with
    | nil =>
      simp only [List.cons_append, List.nil_append, List.cons.injEq] at h
      exfalso
      apply ha
      rw [← h.1]
      exact List.mem_cons_self ..
    | cons x p' =>
      simp only [List.cons_append, List.cons.injEq] at h
      obtain ⟨hp, hr⟩ := ih (fun hm => ha (List.mem_cons_of_mem _ hm)) h.2
      exact ⟨by rw [hp, h.1], hr⟩

theorem no_dot_close (c rest : Str) (hc : ∀ ch ∈ c, ch ≠ '.') (hr : '.' ∉ rest) :
    '.' ∉ (c ++ '}' :: '}' :: rest) := by
  intro hmem
  rcases List.mem_append.mp hmem with h1 | h1
  · exact (hc _ h1) rfl
  · rw [List.mem_cons, List.mem_cons] at h1
    rcases h1 with h1 | h1 | h1
    · exact absurd h1 (by decide)
    · exact absurd h1 (by decide)
    · exact hr h1

theorem matchGroups_one (c rest : Str) (h : GoodComp c) (hr : '.' ∉ rest) :
    matchGroups (c ++ '}' :: '}' :: rest) =
      some (⟨none, none, c, '{' :: '{' :: (c ++ ['}', '}'])⟩, rest) := by
  have hnd : '.' ∉ (c ++ '}' :: '}' :: rest) :=
    no_dot_close c rest (fun ch hm => (h.2 ch hm).1) hr
  have hb1 := seekDot_no_dot (seekDot seekClose) _ hnd
  have hb2 := seekDot_no_dot seekClose _ hnd
  have hb3 := seekClose_append c rest h.1
    (fun ch hm => ⟨(h.2 ch hm).2.1, (h.2 ch hm).2.2⟩)
  simp [matchGroups, hb1, hb2, hb3]

theorem matchGroups_two (c1 c2 rest : Str) (h1 : GoodComp c1) (h2 : GoodComp c2)
    (hr : '.' ∉ rest) :
    matchGroups (c1 ++ '.' :: (c2 ++ '}' :: '}' :: rest)) =
      some (⟨none, some c1, c2,
        '{' :: '{' :: (c1 ++ '.' :: (c2 ++ ['}', '}']))⟩, rest) := by
  have hndt : '.' ∉ (c2 ++ '}' :: '}' :: rest) :=
    no_dot_close c2 rest (fun ch hm => (h2.2 ch hm).1) hr
  have hnd1 : '.' ∉ c1 := fun hm => (h1.2 _ hm).1 rfl
  have hb1 : seekDot (seekDot seekClose) (c1 ++ '.' :: (c2 ++ '}' :: '}' :: rest))
      = none := by
    apply seekDot_eq_none
    intro p r hpr
    obtain ⟨hp, hrr⟩ := dot_split_unique hnd1 hndt hpr
    rw [hrr]
    exact seekDot_no_dot seekClose _ hndt
  have hb2 : seekDot seekClose (c1 ++ '.' :: (c2 ++ '}' :: '}' :: rest))
      = some (c1, c2, rest) :=
    seekDot_append seekClose c1 _ (c2, rest) h1.1
      (fun ch hm => ⟨(h1.2 ch hm).1, (h1.2 ch hm).2.2⟩)
      (seekClose_append c2 rest h2.1
        (fun ch hm => ⟨(h2.2 ch hm).2.1, (h2.2 ch hm).2.2⟩))
  simp [matchGroups, hb1, hb2]

theorem matchGroups_three (c1 c2 c3 rest : Str) (h1 : GoodComp c1)
    (h2 : GoodComp c2) (h3 : GoodComp c3) :
    matchGroups (c1 ++ '.' :: (c2 ++ '.' :: (c3 ++ '}' :: '}' :: rest))) =
      some (⟨some c1, some c2, c3,
        '{' :: '{' :: (c1 ++ '.' :: (c2 ++ '.' :: (c3 ++ ['}', '}'])))⟩, rest) := by
  have hb1 : seekDot (seekDot seekClose)
      (c1 ++ '.' :: (c2 ++ '.' :: (c3 ++ '}' :: '}' :: rest)))
      = some (c1, c2, c3, rest) :=
    seekDot_append _ c1 _ (c2, c3, rest) h1.1
      (fun ch hm => ⟨(h1.2 ch hm).1, (h1.2 ch hm).2.2⟩)
      (seekDot_append seekClose c2 _ (c3, rest) h2.1
        (fun ch hm => ⟨(h2.2 ch hm).1, (h2.2 ch hm).2.2⟩)
        (seekClose_append c3 rest h3.1
          (fun ch hm => ⟨(h3.2 ch hm).2.1, (h3.2 ch hm).2.2⟩)))
  simp [matchGroups, hb1]

end OnePassSync

namespace OnePassSync

/-! ## Lemmas about `str.replace` -/

theorem startsWith_append_self (p t : Str) : startsWith (p ++ t) p = true := by
  induction p with
  | nil =>
    cases t with
    | nil => rfl
    | cons c s => rfl
  | cons c p' ih => simp [startsWith, ih]

theorem replaceAllFuel_congr (o : Char) (os new : Str) :
    ∀ (n m : Nat) (s : Str), s.length ≤ n → s.length ≤ m →
      replaceAllFuel o os new n s = replaceAllFuel o os new m s := by
  intro n
  induction n with
  | zero =>
    intro m s h1 _
    have hs : s = [] := List.eq_nil_of_length_eq_zero (Nat.le_zero.mp h1)
    subst hs
    cases m <;> rfl
  | succ n ih =>
    intro m s h1 h2
    cases s with
    | nil => cases m <;> rfl
    | cons c s' =>
      cases m with
      | zero => simp at h2
      | succ m' =>
        simp only [replaceAllFuel]
        by_cases hp : startsWith (c :: s') (o :: os) = true
        · rw [if_pos hp, if_pos hp]
          have hlen : (s'.drop os.length).length ≤ n := by
            simp only [List.length_drop]
            simp only [List.length_cons] at h1
            omega
          have hlen' : (s'.drop os.length).length ≤ m' := by
            simp only [List.length_drop]
            simp only [List.length_cons] at h2
            omega
          rw [ih _ _ hlen hlen']
        · rw [if_neg hp, if_neg hp]
          have hlen : s'.length ≤ n := by
            simp only [List.length_cons] at h1
            omega
          have hlen' : s'.length ≤ m' := by
            simp only [List.length_cons] at h2
            omega
          rw [ih _ _ hlen hlen']

theorem replaceAll_skip (o : Char) (os new a t : Str) (ha : o ∉ a) :
    replaceAll (a ++ t) (o :: os) new = a ++ replaceAll t (o :: os) new := by
  induction a with
  | nil => simp
  | cons x a' ih =>
    have hxo : (x == o) = false := by
      have hne : x ≠ o := fun he => ha (he ▸ List.mem_cons_self ..)
      simp [hne]
    have hsw : startsWith (x :: (a' ++ t)) (o :: os) = false := by
      simp [startsWith, hxo]
    show replaceAllFuel o os new (x :: (a' ++ t)).length (x :: (a' ++ t))
      = x :: a' ++ replaceAll t (o :: os) new
    simp only [List.length_cons, replaceAllFuel, hsw, Bool.false_eq_true, if_false]
    have := ih (fun hm => ha (List.mem_cons_of_mem _ hm))
    rw [show replaceAllFuel o os new (a' ++ t).length (a' ++ t)
        = replaceAll (a' ++ t) (o :: os) new from rfl, this]
    simp

theorem replaceAll_head (o : Char) (os new t : Str) :
    replaceAll ((o :: os) ++ t) (o :: os) new = new ++ replaceAll t (o :: os) new := by
  show replaceAllFuel o os new (o :: (os ++ t)).length (o :: (os ++ t))
    = new ++ replaceAll t (o :: os) new
  have hsw : startsWith (o :: (os ++ t)) (o :: os) = true := by
    have h := startsWith_append_self (o :: os) t
    simpa using h
  simp only [List.length_cons, replaceAllFuel, hsw, if_true]
  rw [List.drop_left]
  congr 1
  show replaceAllFuel o os new (os ++ t).length t = replaceAll t (o :: os) new
  rw [replaceAllFuel_congr o os new (os ++ t).length t.length t
    (by rw [List.length_append]; omega) le_rfl]
  rfl

theorem replaceAll_of_not_mem (o : Char) (os new a : Str) (ha : o ∉ a) :
    replaceAll a (o :: os) new = a := by
  have h := replaceAll_skip o os new a [] ha
  simp only [List.append_nil] at h
  rw [h]
  simp [replaceAll, replaceAllFuel]

/-! ## Lemmas about the template engine loop -/

theorem foldl_matchStep_calls (op : OpFun) (a v i : Option Str)
    (ms : List RMatch) :
    ∀ (s : Str) (b : Bool) (cs : List CallT),
      (ms.foldl (matchStep op a v i) (s, b, cs)).2.2
        = cs ++ ms.map (resolveCall a v i) := by
  induction ms with
  | nil => intro s b cs; simp
  | cons m ms ih =>
    intro s b cs
    simp only [List.foldl_cons, List.map_cons]
    cases hcv : callValue op (resolveCall a v i m) with
    | some val =>
      rw [show matchStep op a v i (s, b, cs) m
          = (substStep s m.text val, b, cs ++ [resolveCall a v i m]) by
        simp [matchStep, hcv]]
      rw [ih]
      simp
    | none =>
      rw [show matchStep op a v i (s, b, cs) m
          = (s, false, cs ++ [resolveCall a v i m]) by
        simp [matchStep, hcv]]
      rw [ih]
      simp

theorem foldl_matchStep_flag (op : OpFun) (a v i : Option Str)
    (ms : List RMatch) :
    ∀ (s : Str) (b : Bool) (cs : List CallT),
      (ms.foldl (matchStep op a v i) (s, b, cs)).2.1
        = (b && ms.all (fun m => (callValue op (resolveCall a v i m)).isSome)) := by
  induction ms with
  | nil => intro s b cs; simp
  | cons m ms ih =>
    intro s b cs
    simp only [List.foldl_cons, List.all_cons]
    cases hcv : callValue op (resolveCall a v i m) with
    | some val =>
      rw [show matchStep op a v i (s, b, cs) m
          = (substStep s m.text val, b, cs ++ [resolveCall a v i m]) by
        simp [matchStep, hcv]]
      rw [ih]
      simp [hcv]
    | none =>
      rw [show matchStep op a v i (s, b, cs) m
          = (s, false, cs ++ [resolveCall a v i m]) by
        simp [matchStep, hcv]]
      rw [ih]
      simp [hcv]

theorem processLine_calls (op : OpFun) (a v i : Option Str) (line : Str) :
    (processLine op a v i line).2.2 = (findIter line).map (resolveCall a v i) := by
  have h := foldl_matchStep_calls op a v i (findIter line) line true []
  simpa [processLine] using h

theorem processLine_flag (op : OpFun) (a v i : Option Str) (line : Str) :
    (processLine op a v i line).2.1
      = (findIter line).all (fun m => (callValue op (resolveCall a v i m)).isSome) := by
  have h := foldl_matchStep_flag op a v i (findIter line) line true []
  simpa [processLine] using h

end OnePassSync

namespace OnePassSync

/-! ## Claim theorems -/

/-- C3: the placeholder pattern matches a double-brace token with one, two or
three dot-separated components right-aligned — with one component that
component is the field; with two, the first is the item override and the
second the field; with three, the first is the vault override, the second the
item override and the third the field.  No account component exists: the
captured groups are only vault, item and field. -/
theorem C3_pattern_right_aligned (f it vt rest : Str)
    (hf : GoodComp f) (hit : GoodComp it) (hvt : GoodComp vt) (hr : '.' ∉ rest) :
    matchGroups (f ++ '}' :: '}' :: rest)
        = some (⟨none, none, f, '{' :: '{' :: (f ++ ['}', '}'])⟩, rest)
    ∧ matchGroups (it ++ '.' :: (f ++ '}' :: '}' :: rest))
        = some (⟨none, some it, f,
            '{' :: '{' :: (it ++ '.' :: (f ++ ['}', '}']))⟩, rest)
    ∧ matchGroups (vt ++ '.' :: (it ++ '.' :: (f ++ '}' :: '}' :: rest)))
        = some (⟨some vt, some it, f,
            '{' :: '{' :: (vt ++ '.' :: (it ++ '.' :: (f ++ ['}', '}'])))⟩, rest) :=
  ⟨matchGroups_one f rest hf hr, matchGroups_two it f rest hit hf hr,
   matchGroups_three vt it f rest hvt hit hf⟩

/-- Witness for C3 at the concrete token `{{V1.db.pw}}`. -/
theorem C3_pattern_right_aligned_witness :
    GoodComp "pw".toList ∧ GoodComp "db".toList ∧ GoodComp "V1".toList
    ∧ '.' ∉ ([] : Str)
    ∧ matchGroups ("V1".toList ++ '.' :: ("db".toList ++ '.' ::
          ("pw".toList ++ '}' :: '}' :: ([] : Str))))
        = some (⟨some "V1".toList, some "db".toList, "pw".toList,
            "{{V1.db.pw}}".toList⟩, ([] : Str)) :=
  ⟨by decide, by decide, by decide, by decide,
   (C3_pattern_right_aligned "pw".toList "db".toList "V1".toList []
     (by decide) (by decide) (by decide) (by decide)).2.2⟩

/-- C4 counterexample: the source's substitution (`str.replace` with no count
argument) replaces every occurrence, not only the first — on the line
`{{f}} {{f}}`, substituting `v` for the first match's text yields `v v`, not
the `v {{f}}` that a replace-first-occurrence operation would produce. -/
theorem C4_counterexample :
    substStep "{{f}} {{f}}".toList "{{f}}".toList "v".toList = "v v".toList
    ∧ substStep "{{f}} {{f}}".toList "{{f}}".toList "v".toList
        ≠ "v {{f}}".toList := by
  constructor
  · decide
  · decide

/-- C4 (amended): when a placeholder match resolves successfully, the
substitution replaces every occurrence of the matched substring in the
current (evolving) line content — in particular a line containing two
textually identical placeholder strings has both replaced by the one
`str.replace` call (the replacement text itself is never rescanned).  The
matched text always starts with `{`, and the side conditions say that the
surrounding pieces do not contain that first character. -/
theorem C4_substitution_replaces_all (o : Char) (os new a b c : Str)
    (ha : o ∉ a) (hb : o ∉ b) (hc : o ∉ c) :
    substStep (a ++ (o :: os) ++ b ++ (o :: os) ++ c) (o :: os) new
      = a ++ new ++ b ++ new ++ c := by
  simp only [substStep, List.append_assoc]
  rw [replaceAll_skip o os new a _ ha, replaceAll_head,
      replaceAll_skip o os new b _ hb, replaceAll_head,
      replaceAll_of_not_mem o os new c hc]

/-- Witness for the amended C4 on the line `x={{f}} y={{f}}!`. -/
theorem C4_substitution_replaces_all_witness :
    '{' ∉ "x=".toList ∧ '{' ∉ " y=".toList ∧ '{' ∉ "!".toList
    ∧ substStep ("x=".toList ++ "\x7b\x7bf\x7d\x7d".toList ++ " y=".toList
          ++ "\x7b\x7bf\x7d\x7d".toList ++ "!".toList)
        "\x7b\x7bf\x7d\x7d".toList "v".toList
      = "x=".toList ++ "v".toList ++ " y=".toList ++ "v".toList ++ "!".toList :=
  ⟨by decide, by decide, by decide,
   C4_substitution_replaces_all '{' "\x7bf\x7d\x7d".toList "v".toList
     "x=".toList " y=".toList "!".toList (by decide) (by decide) (by decide)⟩

/-- C6 counterexample: a document fetch can succeed with empty bytes
(`op document get` exits zero with empty stdout), and then nothing is written
and the item reports failure — contradicting "fetch succeeds ⇒ exactly the
fetched bytes are written". -/
theorem C6_empty_fetch_counterexample :
    get_1password_file (fun _ _ _ => some ([] : List Nat)) none none
        "doc".toList = some []
    ∧ process_file (fun _ _ _ => some ([] : List Nat)) none none
        (some "doc".toList) "out".toList = (false, none)
    ∧ process_file (fun _ _ _ => some ([] : List Nat)) none none
        (some "doc".toList) "out".toList ≠ (true, some []) := by
  refine ⟨rfl, rfl, ?_⟩
  decide

/-- C6 (amended): a fetch that succeeds with nonempty content has exactly
those bytes written verbatim to the destination with success reported; a
failing fetch reports failure with nothing written.  (A successful fetch of
empty content also reports failure with nothing written — see the C10
theorem.) -/
theorem C6_file_verbatim_amended (fetch : FetchFun) (acc vau : Option Str)
    (it dst : Str) (bs : List Nat) :
    (fetch acc vau it = some bs → bs ≠ [] →
      process_file fetch acc vau (some it) dst = (true, some bs))
    ∧ (fetch acc vau it = none →
      process_file fetch acc vau (some it) dst = (false, none)) := by
  constructor
  · intro hf hbs
    simp [process_file, get_1password_file, hf, hbs]
  · intro hf
    simp [process_file, get_1password_file, hf]

/-- Witness for the amended C6: bytes `[7, 8]` are written verbatim, and a
failed fetch writes nothing. -/
theorem C6_file_verbatim_amended_witness :
    process_file (fun _ _ _ => some [7, 8]) none none (some "doc".toList)
        "out".toList = (true, some [7, 8])
    ∧ process_file (fun _ _ _ => none) none none (some "doc".toList)
        "out".toList = (false, none) :=
  ⟨(C6_file_verbatim_amended (fun _ _ _ => some [7, 8]) none none
      "doc".toList "out".toList [7, 8]).1 rfl (by decide),
   (C6_file_verbatim_amended (fun _ _ _ => none) none none
      "doc".toList "out".toList []).2 rfl⟩

/-- C8: the template engine is deterministic — on the same source template,
with backends that answer every (account, vault, item) invocation
identically, the whole result (success flag, written destination content,
call list) is identical. -/
theorem C8_deterministic (op1 op2 : OpFun) (tmpl : TmplFun) (a v i : Option Str)
    (src dst : Str) (h : ∀ acc vau it, op1 acc vau it = op2 acc vau it) :
    process_template op1 tmpl a v i src dst
      = process_template op2 tmpl a v i src dst := by
  have hop : op1 = op2 := funext fun acc => funext fun vau => funext fun it =>
    h acc vau it
  rw [hop]

/-- Witness for C8 with two syntactically different but pointwise equal
backends. -/
theorem C8_deterministic_witness :
    process_template (fun _ _ _ => OpOutcome.error)
        (fun _ => some ["{{f}}\n".toList]) none none none "t".toList "d".toList
      = process_template
          (fun _ _ it => if it = it then OpOutcome.error else OpOutcome.ok [])
          (fun _ => some ["{{f}}\n".toList]) none none none "t".toList
          "d".toList :=
  C8_deterministic _ _ _ none none none _ _ (fun acc vau it => by simp)

/-- C9 (code bug): when the backend's field list has an entry whose label
matches but whose value is the empty string, `get_1password_value` prints
"Field not found" yet returns the empty string, which the caller treats as a
successful lookup — it does not return absence.  (When the `value` key is
absent it does return absence, second conjunct.) -/
theorem C9_empty_value_lookup :
    get_1password_value
        (fun _ _ _ => OpOutcome.ok [⟨some "pw".toList, some "".toList⟩])
        none none (some "db".toList) "pw".toList = some "".toList
    ∧ get_1password_value
        (fun _ _ _ => OpOutcome.ok [⟨some "pw".toList, none⟩])
        none none (some "db".toList) "pw".toList = none :=
  ⟨rfl, rfl⟩

/-- C10: for a file work item whose document fetch returns zero bytes, the
materializer reports failure and writes nothing to the destination. -/
theorem C10_empty_document_not_written (fetch : FetchFun) (acc vau : Option Str)
    (it dst : Str) (h : fetch acc vau it = some []) :
    process_file fetch acc vau (some it) dst = (false, none) := by
  simp [process_file, get_1password_file, h]

/-- Witness for C10 with a backend returning an empty document. -/
theorem C10_empty_document_not_written_witness :
    ((fun _ _ _ => some ([] : List Nat)) : FetchFun) none none "doc2".toList
        = some []
    ∧ process_file (fun _ _ _ => some ([] : List Nat)) none none
        (some "doc2".toList) "o2".toList = (false, none) :=
  ⟨rfl, C10_empty_document_not_written _ none none "doc2".toList "o2".toList rfl⟩

end OnePassSync

namespace OnePassSync

/-- C2: the destination is written iff every placeholder lookup across the
whole template succeeded, the returned success flag says exactly the same,
and a lookup is performed for every match of every line regardless of
earlier failures (the call list has one entry per match). -/
theorem C2_write_iff_all_resolved (op : OpFun) (tmpl : TmplFun)
    (a v i : Option Str) (src dst : Str) (content : List Str)
    (h : tmpl src = some content) :
    ((process_template op tmpl a v i src dst).2.1.isSome
        ↔ ∀ c ∈ (process_template op tmpl a v i src dst).2.2,
            (callValue op c).isSome = true)
    ∧ ((process_template op tmpl a v i src dst).1 = true
        ↔ ∀ c ∈ (process_template op tmpl a v i src dst).2.2,
            (callValue op c).isSome = true)
    ∧ (process_template op tmpl a v i src dst).2.2.length
        = (content.map (fun l => (findIter l).length)).sum := by
  have hpt : process_template op tmpl a v i src dst
      = ((content.map (processLine op a v i)).all (fun r => r.2.1),
         if (content.map (processLine op a v i)).all (fun r => r.2.1)
           then some ((content.map (processLine op a v i)).map (fun r => r.1))
           else none,
         ((content.map (processLine op a v i)).map (fun r => r.2.2)).flatten) := by
    simp [process_template, h]
  have hmain : ((content.map (processLine op a v i)).all (fun r => r.2.1) = true)
      ↔ ∀ c ∈ ((content.map (processLine op a v i)).map
          (fun r => r.2.2)).flatten, (callValue op c).isSome = true := by
    rw [List.all_eq_true]
    constructor
    · intro hall c hc
      rw [List.mem_flatten] at hc
      obtain ⟨lst, hlst, hcl⟩ := hc
      obtain ⟨r, hr, hrl⟩ := List.mem_map.mp hlst
      obtain ⟨l, hl, hpl⟩ := List.mem_map.mp hr
      rw [← hrl, ← hpl, processLine_calls] at hcl
      obtain ⟨m, hm, hcm⟩ := List.mem_map.mp hcl
      have hflag := hall r hr
      rw [← hpl, processLine_flag, List.all_eq_true] at hflag
      rw [← hcm]
      exact hflag m hm
    · intro hc r hr
      obtain ⟨l, hl, hpl⟩ := List.mem_map.mp hr
      rw [← hpl, processLine_flag, List.all_eq_true]
      intro m hm
      apply hc
      rw [List.mem_flatten]
      refine ⟨(processLine op a v i l).2.2,
        List.mem_map.mpr ⟨processLine op a v i l,
          List.mem_map.mpr ⟨l, hl, rfl⟩, rfl⟩, ?_⟩
      rw [processLine_calls]
      exact List.mem_map.mpr ⟨m, hm, rfl⟩
  have hiso : (process_template op tmpl a v i src dst).2.1.isSome = true
      ↔ (process_template op tmpl a v i src dst).1 = true := by
    rw [hpt]
    cases hall : (content.map (processLine op a v i)).all (fun r => r.2.1) <;>
      simp [hall]
  have hflag : (process_template op tmpl a v i src dst).1 = true
      ↔ ∀ c ∈ (process_template op tmpl a v i src dst).2.2,
          (callValue op c).isSome = true := by
    rw [hpt]
    exact hmain
  refine ⟨hiso.trans hflag, hflag, ?_⟩
  rw [hpt]
  show ((content.map (processLine op a v i)).map (fun r => r.2.2)).flatten.length
      = (content.map (fun l => (findIter l).length)).sum
  rw [List.length_flatten, List.map_map, List.map_map]
  have hfun : ((List.length ∘ fun r : Str × Bool × List CallT => r.2.2)
      ∘ processLine op a v i) = fun l => (findIter l).length := by
    funext l
    show ((processLine op a v i l).2.2).length = (findIter l).length
    rw [processLine_calls]
    exact List.length_map ..
  rw [hfun]

/-- Witness for C2 on a one-line template whose single lookup succeeds. -/
theorem C2_write_iff_all_resolved_witness :
    ((process_template (fun _ _ _ => OpOutcome.ok [⟨some "c".toList, some "X".toList⟩])
        (fun _ => some ["{{a.b.c}}\n".toList]) none none none "t".toList
        "d".toList).2.1.isSome
      ↔ ∀ c ∈ (process_template (fun _ _ _ => OpOutcome.ok [⟨some "c".toList, some "X".toList⟩])
          (fun _ => some ["{{a.b.c}}\n".toList]) none none none "t".toList
          "d".toList).2.2,
          (callValue (fun _ _ _ => OpOutcome.ok [⟨some "c".toList, some "X".toList⟩]) c).isSome = true)
    ∧ ((process_template (fun _ _ _ => OpOutcome.ok [⟨some "c".toList, some "X".toList⟩])
        (fun _ => some ["{{a.b.c}}\n".toList]) none none none "t".toList
        "d".toList).1 = true
      ↔ ∀ c ∈ (process_template (fun _ _ _ => OpOutcome.ok [⟨some "c".toList, some "X".toList⟩])
          (fun _ => some ["{{a.b.c}}\n".toList]) none none none "t".toList
          "d".toList).2.2,
          (callValue (fun _ _ _ => OpOutcome.ok [⟨some "c".toList, some "X".toList⟩]) c).isSome = true)
    ∧ (process_template (fun _ _ _ => OpOutcome.ok [⟨some "c".toList, some "X".toList⟩])
        (fun _ => some ["{{a.b.c}}\n".toList]) none none none "t".toList
        "d".toList).2.2.length
      = (["{{a.b.c}}\n".toList].map (fun l => (findIter l).length)).sum :=
  C2_write_iff_all_resolved _ _ none none none "t".toList "d".toList
    ["{{a.b.c}}\n".toList] rfl

/-- C1 (amended): the lookup tuples are exactly, in order, one per match of
every template line, (WorkItem.account, matched-vault-or-WorkItem.vault,
matched-item-or-WorkItem.item, matched-field) — there is no fallback from a
missing `item` key to the WorkItem's `name`; and the driver passes the
config's `account`, `vault` and `item` values (not `name`) to the template
engine. -/
theorem C1_resolution_amended (op : OpFun) (fetch : FetchFun) (tmpl : TmplFun)
    (a v i : Option Str) (src : Str) (content : List Str) (k d : Str)
    (h : tmpl src = some content) :
    (process_template op tmpl a v i src d).2.2
        = (content.map (fun l => (findIter l).map (resolveCall a v i))).flatten
    ∧ process_1passwordrc_item op fetch tmpl
        ⟨some k, some "template".toList, a, v, i, some d, some src⟩
      = .ok [.templateDone k (process_template op tmpl a v i src d).1
          (process_template op tmpl a v i src d).2.1
          (process_template op tmpl a v i src d).2.2] := by
  constructor
  · have hfun : ((fun r : Str × Bool × List CallT => r.2.2)
        ∘ processLine op a v i) = fun l => (findIter l).map (resolveCall a v i) :=
      funext fun l => processLine_calls op a v i l
    simp only [process_template, h, List.map_map, hfun]
  · rfl

/-- Witness for the amended C1 on a template with all three placeholder
forms. -/
theorem C1_resolution_amended_witness :
    (process_template (fun _ _ _ => OpOutcome.error)
        (fun _ => some ["{{h}} {{it.u}} {{V2.it.p}}\n".toList])
        (some "acct".toList) (some "Infra".toList) (some "db".toList)
        "t".toList "d".toList).2.2
      = (["{{h}} {{it.u}} {{V2.it.p}}\n".toList].map
          (fun l => (findIter l).map
            (resolveCall (some "acct".toList) (some "Infra".toList)
              (some "db".toList)))).flatten
    ∧ process_1passwordrc_item (fun _ _ _ => OpOutcome.error)
        (fun _ _ _ => none)
        (fun _ => some ["{{h}} {{it.u}} {{V2.it.p}}\n".toList])
        ⟨some "k".toList, some "template".toList, some "acct".toList,
         some "Infra".toList, some "db".toList, some "d".toList,
         some "t".toList⟩
      = .ok [.templateDone "k".toList
          (process_template (fun _ _ _ => OpOutcome.error)
            (fun _ => some ["{{h}} {{it.u}} {{V2.it.p}}\n".toList])
            (some "acct".toList) (some "Infra".toList) (some "db".toList)
            "t".toList "d".toList).1
          (process_template (fun _ _ _ => OpOutcome.error)
            (fun _ => some ["{{h}} {{it.u}} {{V2.it.p}}\n".toList])
            (some "acct".toList) (some "Infra".toList) (some "db".toList)
            "t".toList "d".toList).2.1
          (process_template (fun _ _ _ => OpOutcome.error)
            (fun _ => some ["{{h}} {{it.u}} {{V2.it.p}}\n".toList])
            (some "acct".toList) (some "Infra".toList) (some "db".toList)
            "t".toList "d".toList).2.2] :=
  C1_resolution_amended _ _ _ (some "acct".toList) (some "Infra".toList)
    (some "db".toList) "t".toList ["{{h}} {{it.u}} {{V2.it.p}}\n".toList]
    "k".toList "d".toList rfl

/-- C1 counterexample: a template work item whose config has `name: n` but no
`item` key; for the placeholder `{{f}}` the code calls the lookup with item
`None` — not with the WorkItem's `name` — so the lookup fails and the claimed
tuple (account, vault, `n`, f) is never used. -/
theorem C1_no_name_fallback_counterexample :
    process_1passwordrc_item
        (fun _ _ _ => OpOutcome.ok [⟨some "f".toList, some "v".toList⟩])
        (fun _ _ _ => none) (fun _ => some ["{{f}}".toList])
        ⟨some "n".toList, some "template".toList, none, none, none,
         some "d".toList, some "t".toList⟩
      = .ok [.templateDone "n".toList false none
          [(none, none, none, "f".toList)]]
    ∧ ((none : Option Str), (none : Option Str), (none : Option Str),
        "f".toList)
      ≠ ((none : Option Str), (none : Option Str), some "n".toList,
        "f".toList) := by
  refine ⟨rfl, ?_⟩
  decide

/-- C5 (amended): a missing `name`, `destination` or `type` key, or a missing
`source` key on a template item, raises an uncaught `KeyError` when the item
is reached and aborts the whole run; but a missing `item` key is never a
parse-time error: on a file item it yields an ordinary per-item failure (the
run continues and reports the item as failed). -/
theorem C5_required_keys_amended (op : OpFun) (fetch : FetchFun) (tmpl : TmplFun)
    (ty acc vau itm dst src : Option Str) (k d : Str) (rest : List RawItem) :
    process_1passwordrc_item op fetch tmpl ⟨none, ty, acc, vau, itm, dst, src⟩
        = .error ()
    ∧ process_1passwordrc_item op fetch tmpl
        ⟨some k, ty, acc, vau, itm, none, src⟩ = .error ()
    ∧ process_1passwordrc_item op fetch tmpl
        ⟨some k, none, acc, vau, itm, some d, src⟩ = .error ()
    ∧ process_1passwordrc_item op fetch tmpl
        ⟨some k, some "template".toList, acc, vau, itm, some d, none⟩
        = .error ()
    ∧ process_1passwordrc_item op fetch tmpl
        ⟨some k, some "file".toList, acc, vau, none, some d, src⟩
        = .ok [.fileDone k false none]
    ∧ process_1passwordrc_file op fetch tmpl
        (⟨none, ty, acc, vau, itm, dst, src⟩ :: rest) = .error () :=
  ⟨rfl, rfl, rfl, rfl, rfl, rfl⟩

/-- C5 counterexample: a config whose single file item has `name`, `type` and
`destination` but no `item` key is processed to completion — the run returns
normally with a per-item failure instead of the claimed fatal parse-time
abort. -/
theorem C5_item_key_not_required_counterexample :
    process_1passwordrc_file (fun _ _ _ => OpOutcome.error)
        (fun _ _ _ => some [1, 2]) (fun _ => none)
        [⟨some "n".toList, some "file".toList, none, none, none,
          some "d".toList, none⟩]
      = .ok [.fileDone "n".toList false none] := rfl

/-- C7: a work item with the required keys but a `type` that is neither
`file` nor `template` is silently skipped — it produces no event and the
processing of the surrounding items is exactly that of the list without
it. -/
theorem C7_unknown_type_skipped (op : OpFun) (fetch : FetchFun) (tmpl : TmplFun)
    (xs ys : List RawItem) (u : RawItem) (k d ty : Str)
    (hn : u.name = some k) (hd : u.destination = some d) (ht : u.type = some ty)
    (hf : ty ≠ "file".toList) (htm : ty ≠ "template".toList) :
    process_1passwordrc_file op fetch tmpl (xs ++ u :: ys)
      = process_1passwordrc_file op fetch tmpl (xs ++ ys) := by
  have hf' : ty ≠ ['f', 'i', 'l', 'e'] := hf
  have htm' : ty ≠ ['t', 'e', 'm', 'p', 'l', 'a', 't', 'e'] := htm
  have hu : process_1passwordrc_item op fetch tmpl u = .ok [] := by
    simp [process_1passwordrc_item, hn, hd, ht, hf', htm']
  induction xs with
  | nil =>
    simp only [List.nil_append]
    rw [process_1passwordrc_file, hu]
    cases hrest : process_1passwordrc_file op fetch tmpl ys <;> simp
  | cons x xs ih =>
    simp only [List.cons_append, process_1passwordrc_file, List.append_eq, ih]

/-- Witness for C7: an item of type `dir` contributes nothing. -/
theorem C7_unknown_type_skipped_witness :
    process_1passwordrc_file (fun _ _ _ => OpOutcome.error)
        (fun _ _ _ => none) (fun _ => none)
        [⟨some "n".toList, some "dir".toList, none, none, none,
          some "d".toList, none⟩]
      = process_1passwordrc_file (fun _ _ _ => OpOutcome.error)
          (fun _ _ _ => none) (fun _ => none) [] :=
  C7_unknown_type_skipped _ _ _ [] [] _ "n".toList "d".toList "dir".toList
    rfl rfl rfl (by decide) (by decide)

end OnePassSync
